import Mathlib

/-!
Shallow embedding of the snap-store reactive engine
(`src/signal.ts`, `src/effects.ts`, `src/reactivity-hub.ts`).

Values are modelled as `Option Int` (`none` is JavaScript `undefined`);
JS `Set` objects (signal listener sets, the pending-listener set of the hub,
the `signalHolders` set of a receiver) are insertion-ordered duplicate-free lists,
matching JS `Set` iteration order.  Function identities (listeners) are
numeric ids into a listener environment; user callbacks are deep-embedded
as a small command language (`Cmd` for effect bodies / plain listeners,
`Expr` for computed functions returning a value), which is how closures
are made first-order.  Exceptions are a `Bool` "threw" flag threaded in
result pairs (a JS exception does not roll back state).  A scheduled
microtask flush is represented by the `flushScheduled` flag of the hub; the
pass itself is `flushPass`, which performs exactly what the
`Promise.resolve().then(...)` body of `scheduleFlush` performs.
-/

namespace SnapStore

/-- A JS value: `none` models `undefined`, `some n` a primitive number.
`===` on these is decidable equality. -/
abbrev Value := Option Int

abbrev SigId := Nat
abbrev ListenerId := Nat
abbrev RecvId := Nat
abbrev CompId := Nat

/-- The argument of `setValue`: either a literal value or an updater
closure `(prev) => next`.  `const v` is a literal, `idU` is
`prev => prev`, `throwU` is an updater that throws. -/
inductive Updater where
  | const (v : Value)
  | idU
  | throwU
deriving DecidableEq, Repr

/-- Evaluating the next value inside `setValue`
(`typeof arg === "function" ? arg(holder.value) : arg`). -/
def evalUpdater : Updater → Value → Except Unit Value
  | .const v, _ => .ok v
  | .idU, prev => .ok prev
  | .throwU, _ => .error ()

/-- Model of `SignalHolder` from `reactivity-hub.ts`: the current value and the
insertion-ordered set of subscribed listener identities. -/
structure SignalHolder where
  value : Value
  listeners : List ListenerId
deriving DecidableEq, Repr

/-- Deep-embedded effect/listener bodies (user callbacks `() => void`). -/
inductive Cmd where
  | skip
  | seq (a b : Cmd)
  | readSig (s : SigId)
  | logSig (s : SigId)
  | setSig (s : SigId) (u : Updater)
  | throwErr
  | ifPos (s : SigId) (a b : Cmd)
  | nestEffect (c : Cmd)
deriving DecidableEq, Repr

/-- Deep-embedded computed functions (user callbacks `() => U`). -/
inductive Expr where
  | constE (v : Value)
  | readE (s : SigId)
  | throwE
deriving DecidableEq, Repr

/-- The identity of a listener closure: either a plain command body
(the `fn` of an effect or a user subscriber), or the recompute closure
`() => { const v = fn(); internalSignal.setValue(v) }` allocated in
`ensureInitialized` inside `computed`. -/
inductive ListenerBody where
  | cmd (c : Cmd)
  | compRecompute (cid : CompId)
deriving DecidableEq, Repr

/-- Model of `EffectReceiver` from `reactivity-hub.ts`: the listener identity,
the set of signal cells already registered this receiver, and the
ordered list of recorded unsubscribe actions (each is "delete listener
`l` from signal `s`"). -/
structure EffectReceiver where
  listener : ListenerId
  signalHolders : List SigId
  cleanup : List (SigId × ListenerId)
deriving DecidableEq, Repr

/-- The closure state of one `computed(fn)` call: the eagerly created
internal cache signal, the embedded `fn`, the `initialized` flag
(JS `let initialized: boolean` starts `undefined`, i.e. falsy), the
receiver installed by `ensureInitialized` (models the `cleanupEffect`
closure; `none` until initialization), and an instrumentation counter
of how many times `fn` has been invoked. -/
structure ComputedState where
  internalSig : SigId
  fnExpr : Expr
  initialized : Bool
  recvId : Option RecvId
  fnCalls : Nat
deriving DecidableEq, Repr

/-- Mutable state owned by the reactivity hub (`createReactivityHub`). -/
structure Hub where
  currentEffect : Option RecvId
  pendingListeners : List ListenerId
  flushScheduled : Bool
deriving DecidableEq, Repr

/-- The whole mutable world: the signal registry (`signalHolders` map,
keyed by allocation index), the listener/receiver/computed environments,
the hub, and an observation log written by `logSig` commands. -/
structure World where
  signals : List SignalHolder
  listenerEnv : List ListenerBody
  receivers : List EffectReceiver
  computeds : List ComputedState
  hub : Hub
  log : List Value
deriving DecidableEq, Repr

def defaultHolder : SignalHolder := ⟨none, []⟩
def defaultRecv : EffectReceiver := ⟨0, [], []⟩
def defaultComp : ComputedState := ⟨0, .constE none, false, none, 0⟩

def getSig (w : World) (s : SigId) : SignalHolder := w.signals.getD s defaultHolder
def getRecv (w : World) (r : RecvId) : EffectReceiver := w.receivers.getD r defaultRecv
def getComp (w : World) (c : CompId) : ComputedState := w.computeds.getD c defaultComp
def getBody (w : World) (l : ListenerId) : ListenerBody := w.listenerEnv.getD l (.cmd .skip)

def setSigHolder (w : World) (s : SigId) (h : SignalHolder) : World :=
  { w with signals := w.signals.set s h }

/-- Model of `setCurrentEffect` on the hub. -/
def setCE (e : Option RecvId) (w : World) : World :=
  { w with hub := { w.hub with currentEffect := e } }

/-- Model of `addPendingListener`: JS `Set.add` — no-op if already present,
otherwise appended (insertion order). -/
def addPendingListener (hub : Hub) (l : ListenerId) : Hub :=
  if l ∈ hub.pendingListeners then hub
  else { hub with pendingListeners := hub.pendingListeners ++ [l] }

/-- Synchronous part of `scheduleFlush`: if already scheduled, no-op;
otherwise mark scheduled (the queued microtask body is `flushPass`). -/
def scheduleFlush (hub : Hub) : Hub :=
  if hub.flushScheduled then hub else { hub with flushScheduled := true }

/-- Model of `subscribe` of a signal: `holder.listeners.add(listener)`
(set semantics, insertion order). -/
def sigSubscribe (s : SigId) (l : ListenerId) (w : World) : World :=
  let h := getSig w s
  if l ∈ h.listeners then w
  else setSigHolder w s { h with listeners := h.listeners ++ [l] }

/-- The unsubscribe closure returned by `subscribe`:
`holder.listeners.delete(listener)`. -/
def sigUnsubscribe (s : SigId) (l : ListenerId) (w : World) : World :=
  let h := getSig w s
  setSigHolder w s { h with listeners := h.listeners.filter (· ≠ l) }

/-- The `get value()` accessor of a signal: if a current effect is set
and this holder is not yet in its `signalHolders`, register the holder,
subscribe the listener of the effect and record the unsubscribe action in
the cleanup list of the effect; then return the held value. -/
def sigGetValue (s : SigId) (w : World) : World × Value :=
  let h := getSig w s
  match w.hub.currentEffect with
  | none => (w, h.value)
  | some rid =>
    let r := getRecv w rid
    if s ∈ r.signalHolders then (w, h.value)
    else
      let r1 : EffectReceiver :=
        { r with signalHolders := r.signalHolders ++ [s],
                 cleanup := r.cleanup ++ [(s, r.listener)] }
      let w1 := { w with receivers := w.receivers.set rid r1 }
      (sigSubscribe s r.listener w1, h.value)

/-- Model of `setValue(arg)`: evaluate the next value (an updater may throw and
then nothing at all happens); if it `===` the current value, return
(no-op); otherwise commit the value, move every subscribed listener into
the pending set of the hub, and request a flush.  The `Bool` is the "threw"
flag. -/
def sigSetValue (s : SigId) (u : Updater) (w : World) : World × Bool :=
  let h := getSig w s
  match evalUpdater u h.value with
  | .error _ => (w, true)
  | .ok v =>
    if v = h.value then (w, false)
    else
      let w1 := setSigHolder w s { h with value := v }
      let hub1 := h.listeners.foldl (fun acc l => addPendingListener acc l) w1.hub
      ({ w1 with hub := scheduleFlush hub1 }, false)

/-- Model of `createSignal(initialValue)`: allocate a holder and register it in
the hub registry (the registry is the allocation-indexed list itself).
Returns the id of the new signal. -/
def createSignal (v : Value) (w : World) : World × SigId :=
  ({ w with signals := w.signals ++ [⟨v, []⟩] }, w.signals.length)

/-- Allocate a fresh listener identity for a callback body. -/
def allocListener (w : World) (b : ListenerBody) : World × ListenerId :=
  ({ w with listenerEnv := w.listenerEnv ++ [b] }, w.listenerEnv.length)

/-- Model of `createEffectReceiver(fn)`: fresh receiver with empty
`signalHolders` and `cleanup`, wrapping the given listener identity. -/
def allocReceiver (w : World) (lid : ListenerId) : World × RecvId :=
  ({ w with receivers := w.receivers ++ [⟨lid, [], []⟩] }, w.receivers.length)

/-- Execution of a deep-embedded callback body.  `seq` propagates a
throw; `nestEffect` is a nested `effect(...)` call performed inside a
running body (save current effect, set to the fresh receiver, run the
body, restore in a `finally`). -/
def execCmd : Cmd → World → World × Bool
  | .skip, w => (w, false)
  | .seq a b, w =>
    match execCmd a w with
    | (w1, true) => (w1, true)
    | (w1, false) => execCmd b w1
  | .readSig s, w => ((sigGetValue s w).1, false)
  | .logSig s, w =>
    let p := sigGetValue s w
    ({ p.1 with log := p.1.log ++ [p.2] }, false)
  | .setSig s u, w => sigSetValue s u w
  | .throwErr, w => (w, true)
  | .ifPos s a b, w =>
    let p := sigGetValue s w
    match p.2 with
    | some n => if 0 < n then execCmd a p.1 else execCmd b p.1
    | none => execCmd b p.1
  | .nestEffect c, w =>
    let p1 := allocListener w (.cmd c)
    let p2 := allocReceiver p1.1 p1.2
    let prev := p2.1.hub.currentEffect
    let p3 := execCmd c (setCE (some p2.2) p2.1)
    (setCE prev p3.1, p3.2)

/-- Model of `effect(fn)` from `effects.ts`: create a receiver, save the current
effect, set it to the receiver, run `fn` once, restore in a `finally`
(also when `fn` throws).  Returns the receiver id (the handle held by
the returned cleanup closure) and the "threw" flag. -/
def effectCreate (c : Cmd) (w : World) : World × RecvId × Bool :=
  let p1 := allocListener w (.cmd c)
  let p2 := allocReceiver p1.1 p1.2
  let prev := p2.1.hub.currentEffect
  let p3 := execCmd c (setCE (some p2.2) p2.1)
  (setCE prev p3.1, p2.2, p3.2)

/-- Run a recorded list of unsubscribe actions (`cleanup.forEach`). -/
def runCleanups (l : List (SigId × ListenerId)) (w : World) : World :=
  l.foldl (fun acc p => sigUnsubscribe p.1 p.2 acc) w

/-- The cleanup closure returned by `effect` (and built as
`cleanupEffect` inside `computed`): run every recorded unsubscribe,
then clear the cleanup list and the dependency set. -/
def effectDispose (rid : RecvId) (w : World) : World :=
  let w1 := runCleanups (getRecv w rid).cleanup w
  let r1 : EffectReceiver := { getRecv w1 rid with cleanup := [], signalHolders := [] }
  { w1 with receivers := w1.receivers.set rid r1 }

/-- Evaluation of the embedded `fn` of a computed. -/
def evalExpr : Expr → World → World × Except Unit Value
  | .constE v, w => (w, .ok v)
  | .readE s, w => let p := sigGetValue s w; (p.1, .ok p.2)
  | .throwE, w => (w, .error ())

/-- One invocation of the user function `fn` of the computed `cid`
(instrumented: bumps the invocation counter first). -/
def runCompFn (cid : CompId) (w : World) : World × Except Unit Value :=
  let cs := getComp w cid
  let cs1 : ComputedState := { cs with fnCalls := cs.fnCalls + 1 }
  let w1 := { w with computeds := w.computeds.set cid cs1 }
  evalExpr cs.fnExpr w1

/-- Model of `computed(fn)` from `effects.ts`: the internal cache signal is
created eagerly (`createSignal<U>(undefined!)` runs at call time); the
receiver is not created and `fn` is not invoked — `initialized` starts
falsy and `cleanupEffect` unset. -/
def computedCreate (e : Expr) (w : World) : World × CompId :=
  let p := createSignal none w
  ({ p.1 with computeds := p.1.computeds ++ [⟨p.2, e, false, none, 0⟩] }, p.1.computeds.length)

/-- Model of `ensureInitialized`: on first need, create the recompute receiver,
save/set/restore the current effect around `fn` (restore also on throw,
via `finally`), write the initial value into the internal signal, then —
only on success — install `cleanupEffect` and set `initialized`.
A throw leaves `initialized` false and `cleanupEffect` unset, because
those assignments come after the `try`/`finally`. -/
def ensureInitialized (cid : CompId) (w : World) : World × Bool :=
  let cs := getComp w cid
  if cs.initialized then (w, false)
  else
    let p1 := allocListener w (.compRecompute cid)
    let p2 := allocReceiver p1.1 p1.2
    let prev := p2.1.hub.currentEffect
    match runCompFn cid (setCE (some p2.2) p2.1) with
    | (w4, .error _) => (setCE prev w4, true)
    | (w4, .ok v) =>
      let w5 := (sigSetValue cs.internalSig (.const v) w4).1
      let w6 := setCE prev w5
      let cs6 : ComputedState :=
        { getComp w6 cid with initialized := true, recvId := some p2.2 }
      ({ w6 with computeds := w6.computeds.set cid cs6 }, false)

/-- The `get value()` accessor of a computed: ensure initialized (a
throw propagates), then delegate to the tracked read path of the internal
signal. -/
def compValue (cid : CompId) (w : World) : World × Except Unit Value :=
  match ensureInitialized cid w with
  | (w1, true) => (w1, .error ())
  | (w1, false) =>
    let p := sigGetValue (getComp w1 cid).internalSig w1
    (p.1, .ok p.2)

/-- The `use()` accessor: ensure initialized, then read the cache via
the `useSyncExternalStore` snapshot getter `() => holder.value` (an
untracked read; the framework-owned subscription is outside the core). -/
def compUse (cid : CompId) (w : World) : World × Except Unit Value :=
  match ensureInitialized cid w with
  | (w1, true) => (w1, .error ())
  | (w1, false) => (w1, .ok (getSig w1 (getComp w1 cid).internalSig).value)

/-- On a computed, the `subscribe` field is `internalSignal.subscribe`
itself — it does NOT call `ensureInitialized`. -/
def compSubscribe (cid : CompId) (l : ListenerId) (w : World) : World :=
  sigSubscribe (getComp w cid).internalSig l w

/-- Model of the computed teardown `cleanup`, which runs `cleanupEffect?.()`: a no-op before initialization,
otherwise the effect-style disposer of the recompute receiver. -/
def compCleanup (cid : CompId) (w : World) : World :=
  match (getComp w cid).recvId with
  | none => w
  | some rid => effectDispose rid w

/-- Invocation of a captured listener identity during a flush. -/
def invokeListener (l : ListenerId) (w : World) : World × Bool :=
  match getBody w l with
  | .cmd c => execCmd c w
  | .compRecompute cid =>
    match runCompFn cid w with
    | (w1, .error _) => (w1, true)
    | (w1, .ok v) => sigSetValue (getComp w1 cid).internalSig (.const v) w1

/-- Model of the loop `listeners.forEach(invoke)` in the flush body: sequential
invocation; a throw aborts the iteration and propagates (JS `forEach`
has no isolation here).  Also returns the trace of listeners actually
invoked and the "threw" flag. -/
def runListeners : List ListenerId → World → World × List ListenerId × Bool
  | [], w => (w, [], false)
  | l :: ls, w =>
    match invokeListener l w with
    | (w1, true) => (w1, [l], true)
    | (w1, false) =>
      let r := runListeners ls w1
      (r.1, l :: r.2.1, r.2.2)

/-- The queued microtask body of `scheduleFlush`: capture the pending
set (`Array.from`), clear it, clear the scheduled flag, then invoke the
captured listeners. -/
def flushPass (w : World) : World × List ListenerId × Bool :=
  let captured := w.hub.pendingListeners
  runListeners captured
    { w with hub := { w.hub with pendingListeners := [], flushScheduled := false } }

/-- The empty initial world. -/
def initWorld : World := ⟨[], [], [], [], ⟨none, [], false⟩, []⟩

/-- Repeated `.value` accesses of one computed. -/
def iterValue (cid : CompId) : Nat → World → World
  | 0, w => w
  | n+1, w => iterValue cid n (compValue cid w).1

/-! ### Concrete scenario worlds -/

/-- One signal holding `some 1` with one subscribed listener. -/
def noopW : World :=
  ⟨[⟨some 1, [0]⟩], [.cmd (.logSig 0)], [], [], ⟨none, [], false⟩, []⟩

/-- A full synchronous turn: signal 0 starts at 0, signal 1 at 5; an
effect logs signal 0 and, when signal 0 is positive, also logs signal 1
(a conditional dependency); then 1 is written to signal 0.  The flush has
not yet run. -/
def condWorld : World :=
  let p1 := createSignal (some 0) initWorld
  let p2 := createSignal (some 5) p1.1
  let p3 := effectCreate (.seq (.logSig 0) (.ifPos 0 (.logSig 1) .skip)) p2.1
  (sigSetValue 0 (.const (some 1)) p3.1).1

/-- The state of `condWorld` after its scheduled flush pass. -/
def condAfterFlush : World := (flushPass condWorld).1

/-- The end-to-end batching turn of the spec: `createSignal 0`, an effect
logging the signal, then two synchronous writes (1 then 2). -/
def batchWorld : World :=
  let p1 := createSignal (some 0) initWorld
  let p2 := effectCreate (.logSig 0) p1.1
  let w3 := (sigSetValue 0 (.const (some 1)) p2.1).1
  (sigSetValue 0 (.const (some 2)) w3).1

/-- A pending flush where the first captured listener throws and the
second one would log signal 0. -/
def throwFlushW : World :=
  ⟨[⟨some 7, []⟩], [.cmd .throwErr, .cmd (.logSig 0)], [], [],
   ⟨none, [0, 1], true⟩, []⟩

/-- A pending flush whose single captured listener writes signal 0,
which has listener 1 subscribed — an enqueue happening mid-pass. -/
def writeDuringFlushW : World :=
  ⟨[⟨some 0, [1]⟩], [.cmd (.setSig 0 (.const (some 5))), .cmd (.logSig 0)],
   [], [], ⟨none, [0], true⟩, []⟩

/-- A freshly created, never accessed computed over `fun _ => 7`. -/
def compW : World := (computedCreate (.constE (some 7)) initWorld).1

/-- The same computed after a `subscribe` call with listener id 5. -/
def compSubW : World := compSubscribe 0 5 compW

/-- Upstream signal 0 at 0, a computed reading it, first `.value` access
performed (so the computed is initialized and subscribed upstream). -/
def staleInit : World :=
  (compValue 0 (computedCreate (.readE 0) (createSignal (some 0) initWorld).1).1).1

/-- The state of `staleInit` after `cleanup()` of the computed. -/
def staleTurn : World := compCleanup 0 staleInit

/-- The state of `staleTurn` after a later write of 5 to the former
upstream signal 0. -/
def staleWrite : World := (sigSetValue 0 (.const (some 5)) staleTurn).1


/-! ### Basic preservation lemmas -/

theorem setSigHolder_hub (w : World) (s : SigId) (h : SignalHolder) :
    (setSigHolder w s h).hub = w.hub := rfl

theorem sigSubscribe_hub (s : SigId) (l : ListenerId) (w : World) :
    (sigSubscribe s l w).hub = w.hub := by
  simp only [sigSubscribe]
  split <;> rfl

theorem sigSubscribe_computeds (s : SigId) (l : ListenerId) (w : World) :
    (sigSubscribe s l w).computeds = w.computeds := by
  simp only [sigSubscribe]
  split <;> rfl

theorem sigSubscribe_receivers (s : SigId) (l : ListenerId) (w : World) :
    (sigSubscribe s l w).receivers = w.receivers := by
  simp only [sigSubscribe]
  split <;> rfl

theorem sigGetValue_hub (s : SigId) (w : World) :
    ((sigGetValue s w).1).hub = w.hub := by
  simp only [sigGetValue]
  split
  · rfl
  · split
    · rfl
    · exact sigSubscribe_hub ..

theorem sigGetValue_computeds (s : SigId) (w : World) :
    ((sigGetValue s w).1).computeds = w.computeds := by
  simp only [sigGetValue]
  split
  · rfl
  · split
    · rfl
    · exact sigSubscribe_computeds ..

theorem addPendingListener_currentEffect (hub : Hub) (l : ListenerId) :
    (addPendingListener hub l).currentEffect = hub.currentEffect := by
  simp only [addPendingListener]
  split <;> rfl

theorem foldl_addPendingListener_currentEffect (ls : List ListenerId) (hub : Hub) :
    (ls.foldl (fun acc l => addPendingListener acc l) hub).currentEffect =
      hub.currentEffect := by
  induction ls generalizing hub with
  | nil => rfl
  | cons l ls ih => rw [List.foldl_cons, ih, addPendingListener_currentEffect]

theorem scheduleFlush_currentEffect (hub : Hub) :
    (scheduleFlush hub).currentEffect = hub.currentEffect := by
  simp only [scheduleFlush]
  split <;> rfl

theorem sigSetValue_currentEffect (s : SigId) (u : Updater) (w : World) :
    ((sigSetValue s u w).1).hub.currentEffect = w.hub.currentEffect := by
  simp only [sigSetValue]
  split
  · rfl
  · split
    · rfl
    · simp only [setSigHolder, scheduleFlush_currentEffect,
        foldl_addPendingListener_currentEffect]

theorem sigSetValue_computeds (s : SigId) (u : Updater) (w : World) :
    ((sigSetValue s u w).1).computeds = w.computeds := by
  simp only [sigSetValue]
  split
  · rfl
  · split <;> rfl

theorem evalExpr_hub (e : Expr) (w : World) :
    ((evalExpr e w).1).hub = w.hub := by
  cases e with
  | constE v => rfl
  | readE s => exact sigGetValue_hub ..
  | throwE => rfl

theorem runCompFn_hub (cid : CompId) (w : World) :
    ((runCompFn cid w).1).hub = w.hub := by
  simp only [runCompFn]
  exact evalExpr_hub ..

theorem execCmd_currentEffect (c : Cmd) (w : World) :
    ((execCmd c w).1).hub.currentEffect = w.hub.currentEffect := by
  induction c generalizing w with
  | skip => rfl
  | seq a b iha ihb =>
    simp only [execCmd]
    split
    · next h => exact (congrArg (fun p => p.1.hub.currentEffect) h) ▸ iha w
    · next w1 h =>
      rw [ihb w1, ← (congrArg (fun p => p.1.hub.currentEffect) h)]
      exact iha w
  | readSig s => exact congrArg Hub.currentEffect (sigGetValue_hub s w)
  | logSig s => exact congrArg Hub.currentEffect (sigGetValue_hub s w)
  | setSig s u => exact sigSetValue_currentEffect ..
  | throwErr => rfl
  | ifPos s a b iha ihb =>
    simp only [execCmd]
    split
    · next n hn =>
      split
      · rw [iha, congrArg Hub.currentEffect (sigGetValue_hub s w)]
      · rw [ihb, congrArg Hub.currentEffect (sigGetValue_hub s w)]
    · rw [ihb, congrArg Hub.currentEffect (sigGetValue_hub s w)]
  | nestEffect c ih =>
    simp [execCmd, allocListener, allocReceiver, setCE]

theorem execCmd_currentEffect_fst (c : Cmd) (w : World) :
    (execCmd c w).1.hub.currentEffect = w.hub.currentEffect :=
  execCmd_currentEffect c w

theorem invokeListener_currentEffect (l : ListenerId) (w : World) :
    ((invokeListener l w).1).hub.currentEffect = w.hub.currentEffect := by
  simp only [invokeListener]
  split
  · exact execCmd_currentEffect ..
  · split
    · next w1 h =>
      have := congrArg (fun p => p.1.hub.currentEffect) h
      simp only at this
      rw [← this, runCompFn_hub]
    · next w1 v h =>
      have := congrArg (fun p => p.1.hub) h
      simp only at this
      rw [sigSetValue_currentEffect, ← congrArg Hub.currentEffect this, runCompFn_hub]

theorem runListeners_currentEffect (ls : List ListenerId) (w : World) :
    ((runListeners ls w).1).hub.currentEffect = w.hub.currentEffect := by
  induction ls generalizing w with
  | nil => rfl
  | cons l ls ih =>
    simp only [runListeners]
    split
    · next w1 h => exact (congrArg (fun p => p.1.hub.currentEffect) h) ▸
        invokeListener_currentEffect l w
    · next w1 h =>
      rw [ih w1, ← congrArg (fun p => p.1.hub.currentEffect) h]
      exact invokeListener_currentEffect l w

/-! ### List index helpers -/

theorem getD_set_self {α : Type} (l : List α) (i : Nat) (x d : α) (h : i < l.length) :
    (l.set i x).getD i d = x := by
  rw [List.getD_eq_getElem?_getD, List.getElem?_set_self h]
  rfl

theorem getD_concat {α : Type} (l : List α) (a d : α) :
    (l ++ [a]).getD l.length d = a := by
  rw [List.getD_eq_getElem?_getD, List.getElem?_append_right le_rfl]
  simp

theorem getComp_congr {w1 w2 : World} (h : w1.computeds = w2.computeds) (cid : CompId) :
    getComp w1 cid = getComp w2 cid := by
  unfold getComp
  rw [h]

/-! ### Computed initialization lemmas -/

theorem evalExpr_computeds (e : Expr) (w : World) :
    ((evalExpr e w).1).computeds = w.computeds := by
  cases e with
  | constE v => rfl
  | readE s => exact sigGetValue_computeds ..
  | throwE => rfl

theorem runCompFn_computeds (cid : CompId) (w : World) :
    ((runCompFn cid w).1).computeds =
      w.computeds.set cid
        { getComp w cid with fnCalls := (getComp w cid).fnCalls + 1 } := by
  simp only [runCompFn]
  rw [evalExpr_computeds]

theorem ensureInitialized_already (cid : CompId) (w : World)
    (h : (getComp w cid).initialized = true) :
    ensureInitialized cid w = (w, false) := by
  simp only [ensureInitialized, h, if_true]

theorem ensureInitialized_not_init_spec (cid : CompId) (w : World)
    (hc : cid < w.computeds.length)
    (h0 : (getComp w cid).initialized = false) :
    (ensureInitialized cid w).2 = true ∨
    (getComp ((ensureInitialized cid w).1) cid =
       { getComp w cid with
           initialized := true,
           recvId := some w.receivers.length,
           fnCalls := (getComp w cid).fnCalls + 1 } ∧
     (ensureInitialized cid w).2 = false) := by
  simp only [ensureInitialized, h0, Bool.false_eq_true, if_false]
  split
  · exact Or.inl rfl
  · next w4 v heq =>
    refine Or.inr ⟨?_, rfl⟩
    have h4 : w4.computeds =
        w.computeds.set cid
          { getComp w cid with fnCalls := (getComp w cid).fnCalls + 1 } := by
      have := runCompFn_computeds cid
        (setCE (some ((allocReceiver (allocListener w (.compRecompute cid)).1
          (allocListener w (.compRecompute cid)).2).2))
          (allocReceiver (allocListener w (.compRecompute cid)).1
            (allocListener w (.compRecompute cid)).2).1)
      rw [heq] at this
      simpa [allocListener, allocReceiver, setCE, getComp] using this
    have hlen4 : cid < w4.computeds.length := by
      rw [h4, List.length_set]
      exact hc
    have hget4 : w4.computeds.getD cid defaultComp =
        { getComp w cid with fnCalls := (getComp w cid).fnCalls + 1 } := by
      rw [h4]
      exact getD_set_self _ _ _ _ hc
    simp only [getComp, setCE, sigSetValue_computeds]
    rw [getD_set_self _ _ _ _ hlen4, hget4]
    simp [getComp, allocListener, allocReceiver]

theorem ensureInitialized_success_initialized (cid : CompId) (w : World)
    (hc : cid < w.computeds.length)
    (hs : (ensureInitialized cid w).2 = false) :
    (getComp ((ensureInitialized cid w).1) cid).initialized = true := by
  by_cases h0 : (getComp w cid).initialized
  · rw [ensureInitialized_already cid w h0]
    exact h0
  · rcases ensureInitialized_not_init_spec cid w hc (by simpa using h0) with h | ⟨h, _⟩
    · rw [h] at hs
      cases hs
    · rw [h]

theorem sigGetValue_snd (s : SigId) (w : World) :
    (sigGetValue s w).2 = (getSig w s).value := by
  simp only [sigGetValue]
  split
  · rfl
  · split <;> rfl

theorem compValue_of_initialized (cid : CompId) (w : World)
    (h : (getComp w cid).initialized = true) :
    compValue cid w =
      ((sigGetValue (getComp w cid).internalSig w).1,
       .ok ((getSig w (getComp w cid).internalSig).value)) := by
  simp only [compValue, ensureInitialized_already cid w h]
  rw [sigGetValue_snd]

theorem compValue_computeds_of_initialized (cid : CompId) (w : World)
    (h : (getComp w cid).initialized = true) :
    ((compValue cid w).1).computeds = w.computeds := by
  rw [compValue_of_initialized cid w h]
  exact sigGetValue_computeds ..

theorem compValue_fst_of_success (cid : CompId) (w : World)
    (hs : (ensureInitialized cid w).2 = false) :
    (compValue cid w).1 =
      (sigGetValue (getComp ((ensureInitialized cid w).1) cid).internalSig
        ((ensureInitialized cid w).1)).1 := by
  rcases hE : ensureInitialized cid w with ⟨w1, b⟩
  rw [hE] at hs
  cases b with
  | false => simp only [compValue, hE]
  | true => cases hs

theorem iterValue_computeds (cid : CompId) (n : Nat) (w : World)
    (h : (getComp w cid).initialized = true) :
    (iterValue cid n w).computeds = w.computeds := by
  induction n generalizing w with
  | zero => rfl
  | succ n ih =>
    have h2 := compValue_computeds_of_initialized cid w h
    have h3 : (getComp ((compValue cid w).1) cid).initialized = true := by
      rw [getComp_congr h2]
      exact h
    simp only [iterValue]
    rw [ih _ h3, h2]

theorem sigUnsubscribe_computeds (s : SigId) (l : ListenerId) (w : World) :
    (sigUnsubscribe s l w).computeds = w.computeds := rfl

theorem runCleanups_computeds (l : List (SigId × ListenerId)) (w : World) :
    (runCleanups l w).computeds = w.computeds := by
  induction l generalizing w with
  | nil => rfl
  | cons p l ih =>
    simp only [runCleanups, List.foldl_cons]
    exact ih (sigUnsubscribe p.1 p.2 w)

theorem effectDispose_computeds (rid : RecvId) (w : World) :
    (effectDispose rid w).computeds = w.computeds := by
  simp only [effectDispose]
  exact runCleanups_computeds ..

theorem compCleanup_computeds (cid : CompId) (w : World) :
    (compCleanup cid w).computeds = w.computeds := by
  simp only [compCleanup]
  split
  · rfl
  · exact effectDispose_computeds ..

/-! ### Flush trace lemmas -/

theorem runListeners_trace_of_noThrow (ls : List ListenerId) (w : World)
    (h : (runListeners ls w).2.2 = false) :
    (runListeners ls w).2.1 = ls := by
  induction ls generalizing w with
  | nil => rfl
  | cons l ls ih =>
    rcases hI : invokeListener l w with ⟨w1, e⟩
    cases e with
    | true =>
      rw [runListeners, hI] at h
      cases h
    | false =>
      rw [runListeners, hI] at h ⊢
      simp only at h ⊢
      rw [ih w1 h]

/-! ### Claim theorems -/

/-- C1 counterexample: in the concrete turn of `condWorld`, the flush
re-run of the effect body reads signal 1 (witnessed by `some 5` being
logged during the re-run), yet signal 1 has no subscribed listener
afterwards and the receiver still tracks only signal 0 — so the re-run
did not execute with the current-effect pointer set to the receiver, and
signals read during a later run are NOT registered as dependencies. -/
theorem effect_rerun_untracked_cex :
    condAfterFlush.log = [some 0, some 1, some 5] ∧
    (getSig condAfterFlush 1).listeners = [] ∧
    (getRecv condAfterFlush 0).signalHolders = [0] ∧
    (flushPass condWorld).2.1 = [0] := by decide

/-- C1 (amended): only the initial synchronous run inside `effect(fn)`
executes with the current-effect pointer set to the receiver.  A flush
invocation never changes the pointer (each listener of a pass therefore
starts with the pointer at its pass-start value, `none` in a quiescent
turn, and the whole pass keeps it `none`), and in the concrete turn the
first run did register its reads while the pointer was restored to
`none` before the flush. -/
theorem effect_tracking_first_run_only :
    (∀ l w, ((invokeListener l w).1).hub.currentEffect = w.hub.currentEffect) ∧
    (∀ ls w, w.hub.currentEffect = none →
      ((runListeners ls w).1).hub.currentEffect = none) ∧
    ((getSig condWorld 0).listeners = [0] ∧
     (getRecv condWorld 0).signalHolders = [0] ∧
     condWorld.hub.currentEffect = none) := by
  refine ⟨invokeListener_currentEffect, ?_, by decide, by decide, by decide⟩
  intro ls w h
  rw [runListeners_currentEffect]
  exact h

/-- C1 witness: the amended theorem instantiated on the concrete flush
of `condWorld`. -/
theorem effect_tracking_first_run_only_witness :
    ((runListeners [0] condWorld).1).hub.currentEffect = none :=
  effect_tracking_first_run_only.2.1 [0] condWorld (by decide)

/-- C2: a flush pass captures the pending set and clears it together
with the scheduled flag before running anything (first conjunct, the
definitional swap); when no captured listener throws, the invocation
trace is exactly the captured first-enqueued-order list, hence each
captured listener runs exactly once (with the pending set duplicate
free); enqueueing is idempotent and keeps first-enqueue order; and a
listener enqueued during the pass (listener 1 of `writeDuringFlushW`)
is not invoked in that pass but left pending with a new flush
scheduled. -/
theorem flush_pass_contract :
    (∀ w, flushPass w = runListeners w.hub.pendingListeners
      ({ w with hub := { w.hub with pendingListeners := [], flushScheduled := false } })) ∧
    (∀ w, (flushPass w).2.2 = false → (flushPass w).2.1 = w.hub.pendingListeners) ∧
    (∀ w, (flushPass w).2.2 = false → w.hub.pendingListeners.Nodup →
      ∀ l, l ∈ w.hub.pendingListeners → ((flushPass w).2.1).count l = 1) ∧
    (∀ hub l, l ∈ hub.pendingListeners → addPendingListener hub l = hub) ∧
    (∀ hub l, l ∉ hub.pendingListeners →
      (addPendingListener hub l).pendingListeners = hub.pendingListeners ++ [l]) ∧
    ((flushPass writeDuringFlushW).2.1 = [0] ∧
     ((flushPass writeDuringFlushW).1).hub.pendingListeners = [1] ∧
     ((flushPass writeDuringFlushW).1).hub.flushScheduled = true ∧
     ((flushPass writeDuringFlushW).1).log = []) := by
  refine ⟨fun w => rfl, ?_, ?_, ?_, ?_, by decide, by decide, by decide, by decide⟩
  · intro w h
    exact runListeners_trace_of_noThrow _ _ h
  · intro w h hnd l hl
    have ht : (flushPass w).2.1 = w.hub.pendingListeners :=
      runListeners_trace_of_noThrow _ _ h
    rw [ht]
    exact List.count_eq_one_of_mem hnd hl
  · intro hub l hl
    simp [addPendingListener, hl]
  · intro hub l hl
    simp [addPendingListener, hl]

/-- C2 witness: the contract instantiated on the concrete pending pass
of `writeDuringFlushW` and on concrete hubs. -/
theorem flush_pass_contract_witness :
    (flushPass writeDuringFlushW).2.1 = writeDuringFlushW.hub.pendingListeners ∧
    ((flushPass writeDuringFlushW).2.1).count 0 = 1 ∧
    addPendingListener ⟨none, [0], true⟩ 0 = ⟨none, [0], true⟩ ∧
    (addPendingListener ⟨none, [], false⟩ 0).pendingListeners = [] ++ [0] :=
  ⟨flush_pass_contract.2.1 writeDuringFlushW (by decide),
   flush_pass_contract.2.2.1 writeDuringFlushW (by decide) (by decide) 0 (by decide),
   flush_pass_contract.2.2.2.1 ⟨none, [0], true⟩ 0 (by decide),
   flush_pass_contract.2.2.2.2.1 ⟨none, [], false⟩ 0 (by decide)⟩

/-- C3: end-to-end batching.  In `batchWorld` the initial run logged 0;
the two synchronous writes left a single pending enqueue; the flush
re-runs the effect exactly once, logging the final value 2 and never the
intermediate 1 — the final log is `[0, 2]`. -/
theorem end_to_end_batching :
    batchWorld.log = [some 0] ∧
    batchWorld.hub.pendingListeners = [0] ∧
    ((flushPass batchWorld).1).log = [some 0, some 2] ∧
    (flushPass batchWorld).2.1 = [0] ∧
    (flushPass batchWorld).2.2 = false := by decide

/-- C4: equality short-circuit.  If the evaluated next value is
identical to the stored value, `setValue` returns the world completely
unchanged (same stored value, same pending set, same scheduled flag:
no listener can ever be invoked on account of the write) and does not
throw. -/
theorem setValue_equal_value_noop (w : World) (s : SigId) (u : Updater)
    (h : evalUpdater u (getSig w s).value = .ok (getSig w s).value) :
    sigSetValue s u w = (w, false) := by
  simp [sigSetValue, h]

/-- C4 witness: writing the current value `some 1` literally, and via
the identity updater, to the subscribed signal of `noopW`. -/
theorem setValue_equal_value_noop_witness :
    evalUpdater (.const (some 1)) (getSig noopW 0).value = .ok (getSig noopW 0).value ∧
    sigSetValue 0 (.const (some 1)) noopW = (noopW, false) ∧
    sigSetValue 0 .idU noopW = (noopW, false) :=
  ⟨rfl, setValue_equal_value_noop noopW 0 (.const (some 1)) rfl,
   setValue_equal_value_noop noopW 0 .idU rfl⟩

/-- C5 counterexample: in `throwFlushW` both listeners 0 and 1 are
captured for the same pass; listener 0 throws and listener 1 is never
attempted (its `logSig` leaves no trace in the log), refuting the claim
that every other captured listener is still invoked. -/
theorem flush_throw_not_isolated_cex :
    (flushPass throwFlushW).2.1 = [0] ∧
    (flushPass throwFlushW).2.2 = true ∧
    ((flushPass throwFlushW).1).log = [] := by decide

/-- C5 (amended): a throwing listener aborts the remainder of the pass.
If the listeners before `l` run without throwing and `l` throws, the
pass invokes exactly those earlier listeners followed by `l`, propagates
the exception, and the listeners after `l` are never attempted (they
were already removed from the pending set at pass start, so they are
dropped, not retried). -/
theorem flush_throw_aborts_pass (ls1 : List ListenerId) (l : ListenerId)
    (ls2 : List ListenerId) (w : World)
    (h1 : (runListeners ls1 w).2.2 = false)
    (h2 : (invokeListener l ((runListeners ls1 w).1)).2 = true) :
    runListeners (ls1 ++ l :: ls2) w =
      ((invokeListener l ((runListeners ls1 w).1)).1,
       (runListeners ls1 w).2.1 ++ [l], true) := by
  induction ls1 generalizing w with
  | nil =>
    rcases hI : invokeListener l w with ⟨w1, e⟩
    have h2a : e = true := by
      simpa [runListeners, hI] using h2
    subst h2a
    simp [runListeners, hI]
  | cons a ls1 ih =>
    rcases hA : invokeListener a w with ⟨wa, ea⟩
    cases ea with
    | true =>
      simp only [runListeners, hA] at h1
      exact absurd h1 (by decide)
    | false =>
      have h1a : (runListeners ls1 wa).2.2 = false := by
        simpa [runListeners, hA] using h1
      have h2a : (invokeListener l ((runListeners ls1 wa).1)).2 = true := by
        simpa [runListeners, hA] using h2
      have hg := ih wa h1a h2a
      simp [List.cons_append, runListeners, hA, hg]

/-- C5 witness: the amended abort behavior on the concrete pass of
`throwFlushW` (no earlier listeners, listener 0 throws, listener 1 is
dropped). -/
theorem flush_throw_aborts_pass_witness :
    runListeners ([] ++ 0 :: [1]) throwFlushW =
      ((invokeListener 0 ((runListeners [] throwFlushW).1)).1,
       (runListeners [] throwFlushW).2.1 ++ [0], true) :=
  flush_throw_aborts_pass [] 0 [1] throwFlushW (by decide) (by decide)

/-- C6: tracking-context restoration.  For every `effect(fn)` call and
every `ensureInitialized` run of a computed, the current-effect pointer
of the hub afterwards equals its value before the call — for every body,
including bodies that throw (`Cmd.throwErr`, `Expr.throwE`), because the
restore is a `finally`. -/
theorem tracking_context_restored_on_throw :
    (∀ c w, ((effectCreate c w).1).hub.currentEffect = w.hub.currentEffect) ∧
    (∀ cid w, ((ensureInitialized cid w).1).hub.currentEffect = w.hub.currentEffect) := by
  constructor
  · intro c w
    simp [effectCreate, allocListener, allocReceiver, setCE]
  · intro cid w
    simp only [ensureInitialized]
    split
    · rfl
    · split
      · simp [setCE, allocListener, allocReceiver]
      · simp [setCE, allocListener, allocReceiver]

/-- C7 counterexample: `computed(fn)` registers the internal cache
signal already at call time — `compW` holds one registered signal while
`fn` has never run and the computed is not initialized — refuting the
part of the claim that the internal cache signal is not created until
first access. -/
theorem computed_eager_internal_signal_cex :
    compW.signals.length = 1 ∧
    ¬ compW.signals = initWorld.signals ∧
    (getComp compW 0).fnCalls = 0 ∧
    (getComp compW 0).initialized = false := by decide

/-- C7 (amended): `computed(fn)` creates its internal cache signal
eagerly, but creates no effect receiver and does not invoke `fn` until
the first `.value` access; and after `n + 1` accesses with no
intervening writes, `fn` has been invoked exactly once. -/
theorem computed_lazy_fn_and_effect :
    (∀ e w, ((computedCreate e w).1).receivers = w.receivers ∧
      getComp ((computedCreate e w).1) ((computedCreate e w).2) =
        ⟨w.signals.length, e, false, none, 0⟩) ∧
    (∀ cid w n, cid < w.computeds.length →
      (getComp w cid).initialized = false →
      (getComp w cid).fnCalls = 0 →
      (ensureInitialized cid w).2 = false →
      (getComp (iterValue cid (n+1) w) cid).fnCalls = 1) := by
  constructor
  · intro e w
    refine ⟨rfl, ?_⟩
    simp only [computedCreate, createSignal, getComp]
    exact getD_concat ..
  · intro cid w n hc h0 hf hs
    rcases ensureInitialized_not_init_spec cid w hc h0 with h | ⟨hrec, _⟩
    · rw [h] at hs
      cases hs
    · have hw1 : ((compValue cid w).1).computeds =
          ((ensureInitialized cid w).1).computeds := by
        rw [compValue_fst_of_success cid w hs]
        exact sigGetValue_computeds ..
      have hinit1 : (getComp ((compValue cid w).1) cid).initialized = true := by
        rw [getComp_congr hw1, hrec]
      have hfn1 : (getComp ((compValue cid w).1) cid).fnCalls = 1 := by
        rw [getComp_congr hw1, hrec]
        simp [hf]
      have hiter := iterValue_computeds cid n ((compValue cid w).1) hinit1
      show (getComp (iterValue cid n (compValue cid w).1) cid).fnCalls = 1
      rw [getComp_congr hiter]
      exact hfn1

/-- C7 witness: three `.value` accesses of the fresh computed `compW`
leave the invocation counter at exactly one. -/
theorem computed_lazy_fn_and_effect_witness :
    (getComp (iterValue 0 3 compW) 0).fnCalls = 1 :=
  computed_lazy_fn_and_effect.2 0 compW 2 (by decide) (by decide) (by decide)
    (by decide)

/-- C8 counterexample: calling `subscribe` on the never-accessed
computed of `compW` adds the listener to the internal signal but leaves
the computed uninitialized, `fn` never invoked and no effect receiver
created — refuting the claim that `.subscribe` forces initialization
just as a first `.value` read does. -/
theorem computed_subscribe_no_init_cex :
    (getComp compSubW 0).initialized = false ∧
    (getComp compSubW 0).fnCalls = 0 ∧
    compSubW.receivers = [] ∧
    (getSig compSubW 0).listeners = [5] := by decide

/-- C8 (amended): `.value` and `.use()` force lazy initialization on
first access (when initialization does not throw), but `.subscribe`
does not — it delegates directly to the internal signal and changes
neither the computed state nor the receivers. -/
theorem computed_first_access_init :
    (∀ cid l w, (compSubscribe cid l w).computeds = w.computeds ∧
      (compSubscribe cid l w).receivers = w.receivers) ∧
    (∀ cid w, cid < w.computeds.length → (ensureInitialized cid w).2 = false →
      (getComp ((compValue cid w).1) cid).initialized = true) ∧
    (∀ cid w, cid < w.computeds.length → (ensureInitialized cid w).2 = false →
      (getComp ((compUse cid w).1) cid).initialized = true) := by
  refine ⟨?_, ?_, ?_⟩
  · intro cid l w
    exact ⟨sigSubscribe_computeds .., sigSubscribe_receivers ..⟩
  · intro cid w hc hs
    have h1 := ensureInitialized_success_initialized cid w hc hs
    have hw1 : ((compValue cid w).1).computeds =
        ((ensureInitialized cid w).1).computeds := by
      rw [compValue_fst_of_success cid w hs]
      exact sigGetValue_computeds ..
    rw [getComp_congr hw1]
    exact h1
  · intro cid w hc hs
    have h1 := ensureInitialized_success_initialized cid w hc hs
    have hu : (compUse cid w).1 = (ensureInitialized cid w).1 := by
      rcases hE : ensureInitialized cid w with ⟨w1, b⟩
      rw [hE] at hs
      cases b with
      | false => simp only [compUse, hE]
      | true => cases hs
    rw [hu]
    exact h1

/-- C8 witness: the amended behavior instantiated on `compW` — one
`.value` access initializes it. -/
theorem computed_first_access_init_witness :
    (getComp ((compValue 0 compW).1) 0).initialized = true :=
  computed_first_access_init.2.1 0 compW (by decide) (by decide)

/-- C9: stale computed read is a defined terminal state.  For every
initialized computed, after `cleanup()` the initialized flag stays true,
`.value` returns the cached internal value without error, and the read
leaves every computed state (including the invocation counter)
untouched.  On the concrete scenario, the cleanup removed the computed
from the upstream listener set, a later upstream write enqueues nothing
and leaves the cache at `some 0`, and after the flush `.value` still
returns `some 0` with `fn` still invoked exactly once. -/
theorem stale_computed_read (w : World) (cid : CompId)
    (h : (getComp w cid).initialized = true) :
    (getComp (compCleanup cid w) cid).initialized = true ∧
    (compValue cid (compCleanup cid w)).2 =
      .ok ((getSig (compCleanup cid w)
        (getComp (compCleanup cid w) cid).internalSig).value) ∧
    ((compValue cid (compCleanup cid w)).1).computeds = w.computeds ∧
    ((getSig staleTurn 0).listeners = [] ∧
     (getSig staleWrite 1).value = some 0 ∧
     staleWrite.hub.pendingListeners = [] ∧
     (compValue 0 ((flushPass staleWrite).1)).2 = .ok (some 0) ∧
     (getComp ((compValue 0 ((flushPass staleWrite).1)).1) 0).fnCalls = 1) := by
  have hcc : (getComp (compCleanup cid w) cid).initialized = true := by
    rw [getComp_congr (compCleanup_computeds cid w)]
    exact h
  refine ⟨hcc, ?_, ?_, by decide, by decide, by decide, by rfl, by decide⟩
  · rw [compValue_of_initialized _ _ hcc]
  · rw [compValue_computeds_of_initialized _ _ hcc, compCleanup_computeds]

/-- C9 witness: the stale-read contract instantiated on the initialized
computed of `staleInit`. -/
theorem stale_computed_read_witness :
    (getComp staleInit 0).initialized = true ∧
    (getComp (compCleanup 0 staleInit) 0).initialized = true :=
  ⟨by decide, (stale_computed_read staleInit 0 (by decide)).1⟩

/-- C10: setValue atomicity on a throwing updater.  If the updater
throws on the current value, `setValue` propagates the exception and the
world is returned bit-for-bit unchanged: no value commit, no pending
enqueue, no flush scheduling. -/
theorem setValue_throwing_updater_atomic (w : World) (s : SigId) (u : Updater)
    (h : evalUpdater u (getSig w s).value = .error ()) :
    sigSetValue s u w = (w, true) := by
  simp [sigSetValue, h]

/-- C10 witness: the throwing updater applied to the subscribed signal
of `noopW`. -/
theorem setValue_throwing_updater_atomic_witness :
    evalUpdater .throwU (getSig noopW 0).value = .error () ∧
    sigSetValue 0 .throwU noopW = (noopW, true) :=
  ⟨rfl, setValue_throwing_updater_atomic noopW 0 .throwU rfl⟩

end SnapStore
